import Mathlib

/-!
Shallow embedding of `src/main.go` (AWS translate / Polly / S3 / Transcribe
pipeline).  External services (AWS session, Translate, Polly, S3, Transcribe),
the local file system and the clock are modelled by an environment `Env` of
oracles; the observable behaviour of a run is a trace of call events, the
sequence of entries written to the translated-text sink, and the set of local
files existing at run end.
-/

namespace AwsPipeline

/-- Errors of the pipeline.  Each record-level error carries the index of the
non-blank record (0-based processing counter) at which it occurred; in the Go
source the error value itself is opaque, the index is trace bookkeeping. -/
inductive Err where
  | ioOpen
  | ioScan
  | createOutput
  | translation (k : Nat)
  | synthesis (k : Nat)
  | createAudio (k : Nat)
  | readFrom (k : Nat)
  | storage (k : Nat)
  | removeAudio (k : Nat)
  | submission (k : Nat)
deriving DecidableEq

/-- Observable events of a run: the remote calls (translate, Polly
SynthesizeSpeech, S3 PutObject, Transcribe StartTranscriptionJob), local
staging-file removals, the final sink flush and the deferred removal of the
local sink file. -/
inductive Event where
  | translateCall (k : Nat) (text : String)
  | synthCall (k : Nat) (text : String)
  | uploadCall (k : Nat) (bucket key : String)
  | removeLocal (name : String) (ok : Bool)
  | submitCall (k : Nat) (job uri lang mediaFmt outBucket : String)
  | flushSink
  | sinkFileRemoved (ok : Bool)
deriving DecidableEq

/-- A clock instant.  `time.Now()` in Go has sub-second precision; the layout
string `20060102150405` keeps whole seconds only, so `nano` is carried to show
what formatting discards. -/
structure Timestamp where
  year : Nat
  month : Nat
  day : Nat
  hour : Nat
  minute : Nat
  second : Nat
  nano : Nat
deriving DecidableEq

/-- Environment of oracles: the clock (indexed by the number of prior
`time.Now()` calls), the input file, and the outcome of every fallible
operation, indexed by the 0-based non-blank record counter. -/
structure Env where
  clock : Nat → Timestamp
  inputRaw : Option String
  scanErr : Bool
  createOutputOk : Bool
  translateRes : Nat → String → Option String
  synthOk : Nat → Bool
  createAudioOk : Nat → Bool
  readFromOk : Nat → Bool
  putOk : Nat → Bool
  removeAudioOk : Nat → Bool
  startJobOk : Nat → Bool
  removeOutputOk : Bool

/-- Mutable run state: how many clock reads happened, and which local files
currently exist on disk. -/
structure St where
  clockReads : Nat
  files : List String
deriving DecidableEq

/-- Fixed S3 bucket of `main` (line 25 of the source). -/
def bucketName : String := "report.3q-aws-s24745201.com"

/-- Local sink file name of `main` (line 35 of the source). -/
def outputFileName : String := "translated_text.txt"

/-- Decimal rendering of `n` left-padded with zeros to width `w`, as Go's
reference-time layout fields do. -/
def padNum (w n : Nat) : String :=
  let s := toString n
  if s.length < w then String.mk (List.replicate (w - s.length) '0') ++ s else s

/-- Go `t.Format("20060102150405")`: YYYYMMDDHHMMSS at whole-second
precision; the sub-second component is discarded. -/
def formatTimestamp (t : Timestamp) : String :=
  padNum 4 t.year ++ padNum 2 t.month ++ padNum 2 t.day ++
    padNum 2 t.hour ++ padNum 2 t.minute ++ padNum 2 t.second

/-- Audio staging-file / S3 object name (source line 134). -/
def audioName (t : Timestamp) : String :=
  "audioFile-" ++ formatTimestamp t ++ "-output.mp3"

/-- Transcription job name (source line 176). -/
def jobName (t : Timestamp) : String :=
  "transcription-job-" ++ formatTimestamp t

/-- Go `unicode.IsSpace` restricted to the characters that can occur in this
pipeline's text (ASCII whitespace; the Unicode category-Z code points of the
full Go predicate are elided). -/
def isSpaceGo (c : Char) : Bool :=
  c = ' ' || c = '\t' || c = '\n' || c = '\x0b' || c = '\x0c' || c = '\r'

/-- Test `strings.TrimSpace(s) == ""`: every character is whitespace. -/
def blankGo (s : String) : Bool :=
  s.data.all isSpaceGo

/-- Finish a token accumulated in reverse: `bufio.ScanLines` drops one
trailing carriage return (`dropCR`), which is the head of the reversed
accumulator. -/
def finishTok (cur : List Char) : List Char :=
  match cur with
  | [] => []
  | c :: rest => if c = '\r' then rest.reverse else (c :: rest).reverse

/-- Core of `bufio.Scanner` with `ScanLines`: `cur` is the current token
accumulated in reverse; a token is emitted at each newline, and a final
non-empty remainder is emitted at EOF. -/
def scanAux : List Char → List Char → List (List Char)
  | cur, [] => if cur.isEmpty then [] else [finishTok cur]
  | cur, c :: rest => if c = '\n' then finishTok cur :: scanAux [] rest else scanAux (c :: cur) rest

/-- The sequence of lines `getInputText`'s scanner loop produces from the raw
file contents. -/
def scanLines (s : String) : List String :=
  (scanAux [] s.data).map (fun l => String.mk l)

/-- Inverse serialization used to state the no-filtering property: each line
followed by a newline. -/
def joinLines : List String → String
  | [] => ""
  | l :: ls => l ++ "\n" ++ joinLines ls

/-- Embedding of `getInputText` (source lines 85-101): open the input file,
scan it line by line, fail on an open error or a scanner error. -/
def getInputText (env : Env) : Except Err (List String) :=
  match env.inputRaw with
  | none => .error .ioOpen
  | some raw => if env.scanErr then .error .ioScan else .ok (scanLines raw)

/-- Result of `synthesizeSpeechAndUpload`: the Go return value, the state
after the call, and the events of the call in order. -/
structure SynthOut where
  res : Except Err String
  st : St
  events : List Event

/-- Embedding of `synthesizeSpeechAndUpload` (source lines 119-168): call
Polly, name the staging file from `time.Now()`, create it, drain the audio
stream into it, upload it to S3 under the same name, then delete it.  The
deletion happens only after a successful upload, and a deletion failure is
returned as an error. -/
def synthesizeSpeechAndUpload (env : Env) (k : Nat) (text bucket : String) (st : St) : SynthOut :=
  if !env.synthOk k then
    { res := .error (.synthesis k), st := st, events := [.synthCall k text] }
  else
    let name := audioName (env.clock st.clockReads)
    let st1 : St := { clockReads := st.clockReads + 1, files := st.files }
    if !env.createAudioOk k then
      { res := .error (.createAudio k), st := st1, events := [.synthCall k text] }
    else
      let st2 : St := { st1 with files := name :: st1.files }
      if !env.readFromOk k then
        { res := .error (.readFrom k), st := st2, events := [.synthCall k text] }
      else if !env.putOk k then
        { res := .error (.storage k), st := st2,
          events := [.synthCall k text, .uploadCall k bucket name] }
      else if !env.removeAudioOk k then
        { res := .error (.removeAudio k), st := st2,
          events := [.synthCall k text, .uploadCall k bucket name, .removeLocal name false] }
      else
        { res := .ok name, st := { st2 with files := st2.files.erase name },
          events := [.synthCall k text, .uploadCall k bucket name, .removeLocal name true] }

/-- Result of `transcribeAudioFile`. -/
structure SubmitOut where
  err : Option Err
  st : St
  events : List Event

/-- Embedding of `transcribeAudioFile` (source lines 171-194): build the
`s3://bucket/key` media URI, name the job from a fresh `time.Now()` reading,
and start the transcription job. -/
def transcribeAudioFile (env : Env) (k : Nat) (audioFileName bucket : String) (st : St) :
    SubmitOut :=
  let uri := "s3://" ++ bucket ++ "/" ++ audioFileName
  let tjn := jobName (env.clock st.clockReads)
  let st1 : St := { st with clockReads := st.clockReads + 1 }
  { err := if env.startJobOk k then none else some (.submission k),
    st := st1,
    events := [.submitCall k tjn uri "en-US" "mp3" bucket] }

/-- Result of the record loop of `main`. -/
structure LoopOut where
  err : Option Err
  st : St
  events : List Event
  sink : List String

/-- Embedding of the record loop of `main` (source lines 55-80): skip
blank lines; otherwise translate, append the translation to the sink,
synthesize-and-upload, submit the transcription job; return on the first
error. -/
def runLoop (env : Env) (bucket : String) : List String → Nat → St → LoopOut
  | [], _, st => { err := none, st := st, events := [], sink := [] }
  | txt :: rest, k, st =>
    if blankGo txt then runLoop env bucket rest k st
    else
      match env.translateRes k txt with
      | none => { err := some (.translation k), st := st,
                  events := [.translateCall k txt], sink := [] }
      | some tr =>
        let so := synthesizeSpeechAndUpload env k tr bucket st
        match so.res with
        | .error e => { err := some e, st := so.st,
                        events := .translateCall k txt :: so.events, sink := [tr] }
        | .ok name =>
          let sub := transcribeAudioFile env k name bucket so.st
          match sub.err with
          | some e => { err := some e, st := sub.st,
                        events := .translateCall k txt :: (so.events ++ sub.events),
                        sink := [tr] }
          | none =>
            let tail := runLoop env bucket rest (k + 1) sub.st
            { err := tail.err, st := tail.st,
              events := .translateCall k txt :: (so.events ++ sub.events ++ tail.events),
              sink := tr :: tail.sink }

/-- Observable outcome of a whole run of `main`. -/
structure RunResult where
  outcome : Option Err
  events : List Event
  sink : List String
  localFiles : List String
deriving DecidableEq

/-- Embedding of `main` (source lines 18-82): read the input lines, create
the sink file, run the record loop, flush the buffered writer only after the
loop completes without error, and in all cases where the sink file was
created, remove it on the way out (the deferred function).  The sink is the
sequence of strings passed to `writer.WriteString`, one per translated
record. -/
def mainRun (env : Env) : RunResult :=
  match getInputText env with
  | .error e => { outcome := some e, events := [], sink := [], localFiles := [] }
  | .ok textLines =>
    if !env.createOutputOk then
      { outcome := some .createOutput, events := [], sink := [], localFiles := [] }
    else
      let st0 : St := { clockReads := 0, files := [outputFileName] }
      let lo := runLoop env bucketName textLines 0 st0
      let finalFiles :=
        if env.removeOutputOk then lo.st.files.erase outputFileName else lo.st.files
      match lo.err with
      | some e =>
        { outcome := some e,
          events := lo.events ++ [.sinkFileRemoved env.removeOutputOk],
          sink := lo.sink,
          localFiles := finalFiles }
      | none =>
        { outcome := none,
          events := lo.events ++ [.flushSink, .sinkFileRemoved env.removeOutputOk],
          sink := lo.sink,
          localFiles := finalFiles }

/-- The non-blank records the orchestrator processes, in input order. -/
def nonBlankRecords (raw : String) : List String :=
  (scanLines raw).filter (fun t => !blankGo t)

/-- Every fallible operation of record `k` on raw text `t` succeeds. -/
def recordOk (env : Env) (k : Nat) (t : String) : Prop :=
  (env.translateRes k t).isSome = true ∧ env.synthOk k = true ∧
    env.createAudioOk k = true ∧ env.readFromOk k = true ∧ env.putOk k = true ∧
    env.removeAudioOk k = true ∧ env.startJobOk k = true

instance (env : Env) (k : Nat) (t : String) : Decidable (recordOk env k t) := by
  unfold recordOk; infer_instance

/-- Expected sink contents for non-blank records `l` processed from counter
`k` on: one translation per record, in order. -/
def sinkFor (env : Env) : List String → Nat → List String
  | [], _ => []
  | t :: rest, k => (env.translateRes k t).getD "" :: sinkFor env rest (k + 1)

/-- Expected event trace for non-blank records `l` all succeeding, starting
at record counter `k` with `c` prior clock reads. -/
def okEvents (env : Env) (bucket : String) : List String → Nat → Nat → List Event
  | [], _, _ => []
  | t :: rest, k, c =>
    let tr := (env.translateRes k t).getD ""
    let an := audioName (env.clock c)
    Event.translateCall k t :: Event.synthCall k tr :: Event.uploadCall k bucket an ::
      Event.removeLocal an true ::
      Event.submitCall k (jobName (env.clock (c + 1))) ("s3://" ++ bucket ++ "/" ++ an)
        "en-US" "mp3" bucket ::
      okEvents env bucket rest (k + 1) (c + 2)

/-- Record counter and pipeline step (0 translate, 1 synthesize, 2 upload,
3 submit) of a remote-call event. -/
def callInfo : Event → Option (Nat × Nat)
  | .translateCall k _ => some (k, 0)
  | .synthCall k _ => some (k, 1)
  | .uploadCall k _ _ => some (k, 2)
  | .submitCall k _ _ _ _ _ => some (k, 3)
  | _ => none

/-- Record counter and last-started pipeline step of a record-level error
(`createAudio` and `readFrom` happen inside the synthesis stage, `removeAudio`
after the upload). -/
def failInfo : Err → Option (Nat × Nat)
  | .translation k => some (k, 0)
  | .synthesis k => some (k, 1)
  | .createAudio k => some (k, 1)
  | .readFrom k => some (k, 1)
  | .storage k => some (k, 2)
  | .removeAudio k => some (k, 2)
  | .submission k => some (k, 3)
  | _ => none

/-- An environment in which every operation succeeds, the clock advances one
second per reading, and translation prefixes the text with an `en:` marker. -/
def envAllOk : Env where
  clock := fun n => ⟨2024, 1, 2, 3, 4, 5 + n, 0⟩
  inputRaw := some "a

b
"
  scanErr := false
  createOutputOk := true
  translateRes := fun _ t => some ("en:" ++ t)
  synthOk := fun _ => true
  createAudioOk := fun _ => true
  readFromOk := fun _ => true
  putOk := fun _ => true
  removeAudioOk := fun _ => true
  startJobOk := fun _ => true
  removeOutputOk := true

/-- Blank lines are skipped by the loop without any effect. -/
lemma runLoop_cons_blank (env : Env) (bucket txt : String) (rest : List String) (k : Nat)
    (st : St) (hb : blankGo txt = true) :
    runLoop env bucket (txt :: rest) k st = runLoop env bucket rest k st := by
  simp [runLoop, hb]

/-- When every stage of `synthesizeSpeechAndUpload` succeeds, it returns the
generated audio name, advances the clock by one reading, leaves the file set
unchanged (the staging file is created and then deleted), and its events are
the synthesis call, the upload and the successful local removal. -/
lemma synthesizeSpeechAndUpload_ok (env : Env) (k : Nat) (text bucket : String) (st : St)
    (hs : env.synthOk k = true) (hc : env.createAudioOk k = true)
    (hr : env.readFromOk k = true) (hp : env.putOk k = true)
    (hm : env.removeAudioOk k = true) :
    synthesizeSpeechAndUpload env k text bucket st =
      { res := .ok (audioName (env.clock st.clockReads)),
        st := { clockReads := st.clockReads + 1, files := st.files },
        events := [.synthCall k text,
                   .uploadCall k bucket (audioName (env.clock st.clockReads)),
                   .removeLocal (audioName (env.clock st.clockReads)) true] } := by
  simp [synthesizeSpeechAndUpload, hs, hc, hr, hp, hm]

/-- Unfolding of one fully successful record of the loop. -/
lemma runLoop_cons_ok (env : Env) (bucket txt : String) (rest : List String) (k : Nat)
    (st : St) (tr : String)
    (hb : blankGo txt = false) (htr : env.translateRes k txt = some tr)
    (hs : env.synthOk k = true) (hc : env.createAudioOk k = true)
    (hr : env.readFromOk k = true) (hp : env.putOk k = true)
    (hm : env.removeAudioOk k = true) (hj : env.startJobOk k = true) :
    runLoop env bucket (txt :: rest) k st =
      { err := (runLoop env bucket rest (k + 1) ⟨st.clockReads + 2, st.files⟩).err,
        st := (runLoop env bucket rest (k + 1) ⟨st.clockReads + 2, st.files⟩).st,
        events := Event.translateCall k txt :: Event.synthCall k tr ::
          Event.uploadCall k bucket (audioName (env.clock st.clockReads)) ::
          Event.removeLocal (audioName (env.clock st.clockReads)) true ::
          Event.submitCall k (jobName (env.clock (st.clockReads + 1)))
            ("s3://" ++ bucket ++ "/" ++ audioName (env.clock st.clockReads))
            "en-US" "mp3" bucket ::
          (runLoop env bucket rest (k + 1) ⟨st.clockReads + 2, st.files⟩).events,
        sink := tr :: (runLoop env bucket rest (k + 1) ⟨st.clockReads + 2, st.files⟩).sink } := by
  simp [runLoop, hb, htr, synthesizeSpeechAndUpload_ok env k tr bucket st hs hc hr hp hm,
        transcribeAudioFile, hj]

/-- Full characterization of the loop when every record succeeds: no error,
two clock reads per record, unchanged file set, the canonical event trace and
one sink entry per non-blank record. -/
lemma runLoop_all_ok (env : Env) (bucket : String) (lines : List String) : ∀ (k : Nat) (st : St),
    (∀ j, j < (lines.filter (fun t => !blankGo t)).length →
        recordOk env (k + j) ((lines.filter (fun t => !blankGo t)).getD j "")) →
    runLoop env bucket lines k st =
      { err := none,
        st := { clockReads := st.clockReads + 2 * (lines.filter (fun t => !blankGo t)).length,
                files := st.files },
        events := okEvents env bucket (lines.filter (fun t => !blankGo t)) k st.clockReads,
        sink := sinkFor env (lines.filter (fun t => !blankGo t)) k } := by
  induction lines with
  | nil => intro k st _; simp [runLoop, okEvents, sinkFor]
  | cons txt rest ih =>
    intro k st h
    by_cases hb : blankGo txt
    · rw [runLoop_cons_blank env bucket txt rest k st hb]
      have h' : ∀ j, j < (rest.filter (fun t => !blankGo t)).length →
          recordOk env (k + j) ((rest.filter (fun t => !blankGo t)).getD j "") := by
        simpa [List.filter_cons, hb] using h
      rw [ih k st h']
      simp [List.filter_cons, hb]
    · have hb' : blankGo txt = false := by simpa using hb
      have hflt : (txt :: rest).filter (fun t => !blankGo t) =
          txt :: rest.filter (fun t => !blankGo t) := by
        simp [List.filter_cons, hb']
      rw [hflt] at h ⊢
      have h0 : recordOk env k txt := by simpa using h 0 (by simp)
      obtain ⟨htrIs, hs, hc, hr, hp, hm, hj⟩ := h0
      rcases Option.isSome_iff_exists.mp htrIs with ⟨tr, htr⟩
      have h' : ∀ j, j < (rest.filter (fun t => !blankGo t)).length →
          recordOk env (k + 1 + j) ((rest.filter (fun t => !blankGo t)).getD j "") := by
        intro j hjlt
        have hk : k + (j + 1) = k + 1 + j := by omega
        have := h (j + 1) (by simpa using Nat.succ_lt_succ hjlt)
        rwa [hk] at this
      rw [runLoop_cons_ok env bucket txt rest k st tr hb' htr hs hc hr hp hm hj,
          ih (k + 1) ⟨st.clockReads + 2, st.files⟩ h']
      simp only [okEvents, sinkFor, htr, Option.getD_some, List.length_cons,
        LoopOut.mk.injEq, St.mk.injEq, true_and, and_true]
      omega

/-- Prefix a loop result with the events and sink entries of earlier
records. -/
def prependResult (evs : List Event) (snk : List String) (r : LoopOut) : LoopOut :=
  { err := r.err, st := r.st, events := evs ++ r.events, sink := snk ++ r.sink }

/-- Decomposition of the loop at the `m`-th non-blank record: if the first
`m` non-blank records all succeed, the run consists of their canonical prefix
followed by the loop restarted at record `m`. -/
lemma runLoop_reach (env : Env) (bucket : String) (lines : List String) :
    ∀ (k : Nat) (st : St) (m : Nat),
    m < (lines.filter (fun t => !blankGo t)).length →
    (∀ j, j < m → recordOk env (k + j) ((lines.filter (fun t => !blankGo t)).getD j "")) →
    ∃ rest : List String,
      rest.filter (fun t => !blankGo t) = (lines.filter (fun t => !blankGo t)).drop (m + 1) ∧
      blankGo ((lines.filter (fun t => !blankGo t)).getD m "") = false ∧
      runLoop env bucket lines k st =
        prependResult
          (okEvents env bucket ((lines.filter (fun t => !blankGo t)).take m) k st.clockReads)
          (sinkFor env ((lines.filter (fun t => !blankGo t)).take m) k)
          (runLoop env bucket ((lines.filter (fun t => !blankGo t)).getD m "" :: rest) (k + m)
            ⟨st.clockReads + 2 * m, st.files⟩) := by
  induction lines with
  | nil => intro k st m hm _; simp at hm
  | cons txt rest0 ih =>
    intro k st m hm h
    by_cases hb : blankGo txt
    · have hflt : (txt :: rest0).filter (fun t => !blankGo t) =
          rest0.filter (fun t => !blankGo t) := by simp [List.filter_cons, hb]
      rw [hflt] at hm h ⊢
      rw [runLoop_cons_blank env bucket txt rest0 k st hb]
      exact ih k st m hm h
    · have hb' : blankGo txt = false := by simpa using hb
      have hflt : (txt :: rest0).filter (fun t => !blankGo t) =
          txt :: rest0.filter (fun t => !blankGo t) := by simp [List.filter_cons, hb']
      rw [hflt] at hm h ⊢
      match m with
      | 0 =>
        refine ⟨rest0, by simp, by simpa using hb', ?_⟩
        simp [prependResult, okEvents, sinkFor]
      | m' + 1 =>
        have h0 : recordOk env k txt := by simpa using h 0 (by omega)
        obtain ⟨htrIs, hs, hc, hr, hp, hmv, hj⟩ := h0
        rcases Option.isSome_iff_exists.mp htrIs with ⟨tr, htr⟩
        have h' : ∀ j, j < m' →
            recordOk env (k + 1 + j) ((rest0.filter (fun t => !blankGo t)).getD j "") := by
          intro j hjlt
          have hk : k + (j + 1) = k + 1 + j := by omega
          have := h (j + 1) (by omega)
          simpa [hk] using this
        have hm' : m' < (rest0.filter (fun t => !blankGo t)).length := by
          simpa using Nat.lt_of_succ_lt_succ hm
        obtain ⟨rest, hrest, hblank, heq⟩ := ih (k + 1) ⟨st.clockReads + 2, st.files⟩ m' hm' h'
        refine ⟨rest, by simpa using hrest, by simpa using hblank, ?_⟩
        rw [runLoop_cons_ok env bucket txt rest0 k st tr hb' htr hs hc hr hp hmv hj, heq]
        have hk1 : k + 1 + m' = k + (m' + 1) := by omega
        have hc1 : st.clockReads + 2 + 2 * m' = st.clockReads + 2 * (m' + 1) := by omega
        rw [hk1, hc1] at *
        simp [prependResult, okEvents, sinkFor, htr]

/-- Unfolding of a record whose translation call fails. -/
lemma runLoop_cons_translate_fail (env : Env) (bucket txt : String) (rest : List String)
    (k : Nat) (st : St) (hb : blankGo txt = false) (htr : env.translateRes k txt = none) :
    runLoop env bucket (txt :: rest) k st =
      { err := some (.translation k), st := st,
        events := [.translateCall k txt], sink := [] } := by
  simp [runLoop, hb, htr]

/-- Unfolding of a record whose Polly synthesis call fails. -/
lemma runLoop_cons_synth_fail (env : Env) (bucket txt : String) (rest : List String)
    (k : Nat) (st : St) (tr : String) (hb : blankGo txt = false)
    (htr : env.translateRes k txt = some tr) (hs : env.synthOk k = false) :
    runLoop env bucket (txt :: rest) k st =
      { err := some (.synthesis k), st := st,
        events := [.translateCall k txt, .synthCall k tr], sink := [tr] } := by
  simp [runLoop, hb, htr, synthesizeSpeechAndUpload, hs]

/-- Unfolding of a record whose staging-file creation fails. -/
lemma runLoop_cons_create_fail (env : Env) (bucket txt : String) (rest : List String)
    (k : Nat) (st : St) (tr : String) (hb : blankGo txt = false)
    (htr : env.translateRes k txt = some tr) (hs : env.synthOk k = true)
    (hc : env.createAudioOk k = false) :
    runLoop env bucket (txt :: rest) k st =
      { err := some (.createAudio k), st := ⟨st.clockReads + 1, st.files⟩,
        events := [.translateCall k txt, .synthCall k tr], sink := [tr] } := by
  simp [runLoop, hb, htr, synthesizeSpeechAndUpload, hs, hc]

/-- Unfolding of a record whose audio-stream drain fails: the staging file
has already been created and stays on disk. -/
lemma runLoop_cons_readFrom_fail (env : Env) (bucket txt : String) (rest : List String)
    (k : Nat) (st : St) (tr : String) (hb : blankGo txt = false)
    (htr : env.translateRes k txt = some tr) (hs : env.synthOk k = true)
    (hc : env.createAudioOk k = true) (hr : env.readFromOk k = false) :
    runLoop env bucket (txt :: rest) k st =
      { err := some (.readFrom k),
        st := ⟨st.clockReads + 1, audioName (env.clock st.clockReads) :: st.files⟩,
        events := [.translateCall k txt, .synthCall k tr], sink := [tr] } := by
  simp [runLoop, hb, htr, synthesizeSpeechAndUpload, hs, hc, hr]

/-- Unfolding of a record whose S3 upload fails: the staging file stays on
disk, no removal is attempted. -/
lemma runLoop_cons_put_fail (env : Env) (bucket txt : String) (rest : List String)
    (k : Nat) (st : St) (tr : String) (hb : blankGo txt = false)
    (htr : env.translateRes k txt = some tr) (hs : env.synthOk k = true)
    (hc : env.createAudioOk k = true) (hr : env.readFromOk k = true)
    (hp : env.putOk k = false) :
    runLoop env bucket (txt :: rest) k st =
      { err := some (.storage k),
        st := ⟨st.clockReads + 1, audioName (env.clock st.clockReads) :: st.files⟩,
        events := [.translateCall k txt, .synthCall k tr,
                   .uploadCall k bucket (audioName (env.clock st.clockReads))],
        sink := [tr] } := by
  simp [runLoop, hb, htr, synthesizeSpeechAndUpload, hs, hc, hr, hp]

/-- Unfolding of a record whose upload succeeds but whose local staging-file
removal fails: the error is returned, the file stays on disk, and the
transcription submission never happens. -/
lemma runLoop_cons_remove_fail (env : Env) (bucket txt : String) (rest : List String)
    (k : Nat) (st : St) (tr : String) (hb : blankGo txt = false)
    (htr : env.translateRes k txt = some tr) (hs : env.synthOk k = true)
    (hc : env.createAudioOk k = true) (hr : env.readFromOk k = true)
    (hp : env.putOk k = true) (hm : env.removeAudioOk k = false) :
    runLoop env bucket (txt :: rest) k st =
      { err := some (.removeAudio k),
        st := ⟨st.clockReads + 1, audioName (env.clock st.clockReads) :: st.files⟩,
        events := [.translateCall k txt, .synthCall k tr,
                   .uploadCall k bucket (audioName (env.clock st.clockReads)),
                   .removeLocal (audioName (env.clock st.clockReads)) false],
        sink := [tr] } := by
  simp [runLoop, hb, htr, synthesizeSpeechAndUpload, hs, hc, hr, hp, hm]

/-- Unfolding of a record whose transcription submission fails (everything up
to and including the staging-file removal succeeded). -/
lemma runLoop_cons_submit_fail (env : Env) (bucket txt : String) (rest : List String)
    (k : Nat) (st : St) (tr : String) (hb : blankGo txt = false)
    (htr : env.translateRes k txt = some tr) (hs : env.synthOk k = true)
    (hc : env.createAudioOk k = true) (hr : env.readFromOk k = true)
    (hp : env.putOk k = true) (hm : env.removeAudioOk k = true)
    (hj : env.startJobOk k = false) :
    runLoop env bucket (txt :: rest) k st =
      { err := some (.submission k), st := ⟨st.clockReads + 2, st.files⟩,
        events := [.translateCall k txt, .synthCall k tr,
                   .uploadCall k bucket (audioName (env.clock st.clockReads)),
                   .removeLocal (audioName (env.clock st.clockReads)) true,
                   .submitCall k (jobName (env.clock (st.clockReads + 1)))
                     ("s3://" ++ bucket ++ "/" ++ audioName (env.clock st.clockReads))
                     "en-US" "mp3" bucket],
        sink := [tr] } := by
  simp [runLoop, hb, htr, synthesizeSpeechAndUpload_ok env k tr bucket st hs hc hr hp hm,
        transcribeAudioFile, hj]

/-- A loop started at record counter `k` can only fail at a record counter
of at least `k`. -/
lemma runLoop_fail_ge (env : Env) (bucket : String) (lines : List String) :
    ∀ (k : Nat) (st : St) (e : Err) (kf sf : Nat),
    (runLoop env bucket lines k st).err = some e → failInfo e = some (kf, sf) → k ≤ kf := by
  induction lines with
  | nil => intro k st e kf sf he _; simp [runLoop] at he
  | cons txt rest ih =>
    intro k st e kf sf he hf
    by_cases hb : blankGo txt
    · rw [runLoop_cons_blank env bucket txt rest k st hb] at he
      exact ih k st e kf sf he hf
    · have hb' : blankGo txt = false := by simpa using hb
      rcases htr : env.translateRes k txt with _ | tr
      · rw [runLoop_cons_translate_fail env bucket txt rest k st hb' htr] at he
        simp at he; subst he
        simp [failInfo] at hf; omega
      · by_cases hs : env.synthOk k = true
        · by_cases hc : env.createAudioOk k = true
          · by_cases hr : env.readFromOk k = true
            · by_cases hp : env.putOk k = true
              · by_cases hm : env.removeAudioOk k = true
                · by_cases hj : env.startJobOk k = true
                  · rw [runLoop_cons_ok env bucket txt rest k st tr hb' htr hs hc hr hp hm hj]
                      at he
                    simp at he
                    have := ih (k + 1) ⟨st.clockReads + 2, st.files⟩ e kf sf he hf
                    omega
                  · have hj' : env.startJobOk k = false := by simpa using hj
                    rw [runLoop_cons_submit_fail env bucket txt rest k st tr hb' htr hs hc hr hp
                        hm hj'] at he
                    simp at he; subst he
                    simp [failInfo] at hf; omega
                · have hm' : env.removeAudioOk k = false := by simpa using hm
                  rw [runLoop_cons_remove_fail env bucket txt rest k st tr hb' htr hs hc hr hp
                      hm'] at he
                  simp at he; subst he
                  simp [failInfo] at hf; omega
              · have hp' : env.putOk k = false := by simpa using hp
                rw [runLoop_cons_put_fail env bucket txt rest k st tr hb' htr hs hc hr hp'] at he
                simp at he; subst he
                simp [failInfo] at hf; omega
            · have hr' : env.readFromOk k = false := by simpa using hr
              rw [runLoop_cons_readFrom_fail env bucket txt rest k st tr hb' htr hs hc hr'] at he
              simp at he; subst he
              simp [failInfo] at hf; omega
          · have hc' : env.createAudioOk k = false := by simpa using hc
            rw [runLoop_cons_create_fail env bucket txt rest k st tr hb' htr hs hc'] at he
            simp at he; subst he
            simp [failInfo] at hf; omega
        · have hs' : env.synthOk k = false := by simpa using hs
          rw [runLoop_cons_synth_fail env bucket txt rest k st tr hb' htr hs'] at he
          simp at he; subst he
          simp [failInfo] at hf; omega

/-- Fail-fast bound on the event trace: when the loop fails at `(kf, sf)`
(record counter, pipeline step), every remote call of the trace is for an
earlier record or for the failing record at a step no later than the failing
one. -/
lemma runLoop_fail_fast (env : Env) (bucket : String) (lines : List String) :
    ∀ (k : Nat) (st : St) (e : Err) (kf sf : Nat),
    (runLoop env bucket lines k st).err = some e → failInfo e = some (kf, sf) →
    ∀ ev ∈ (runLoop env bucket lines k st).events, ∀ k' s', callInfo ev = some (k', s') →
      k' < kf ∨ (k' = kf ∧ s' ≤ sf) := by
  induction lines with
  | nil => intro k st e kf sf he _; simp [runLoop] at he
  | cons txt rest ih =>
    intro k st e kf sf he hf ev hev k' s' hci
    by_cases hb : blankGo txt
    · rw [runLoop_cons_blank env bucket txt rest k st hb] at he hev
      exact ih k st e kf sf he hf ev hev k' s' hci
    · have hb' : blankGo txt = false := by simpa using hb
      rcases htr : env.translateRes k txt with _ | tr
      · rw [runLoop_cons_translate_fail env bucket txt rest k st hb' htr] at he hev
        simp at he; subst he
        simp [failInfo] at hf
        simp at hev; subst hev
        simp [callInfo] at hci
        omega
      · by_cases hs : env.synthOk k = true
        · by_cases hc : env.createAudioOk k = true
          · by_cases hr : env.readFromOk k = true
            · by_cases hp : env.putOk k = true
              · by_cases hm : env.removeAudioOk k = true
                · by_cases hj : env.startJobOk k = true
                  · rw [runLoop_cons_ok env bucket txt rest k st tr hb' htr hs hc hr hp hm hj]
                      at he hev
                    simp at he hev
                    have hge := runLoop_fail_ge env bucket rest (k + 1)
                      ⟨st.clockReads + 2, st.files⟩ e kf sf he hf
                    rcases hev with h1 | h1 | h1 | h1 | h1 | h1
                    · subst h1; simp [callInfo] at hci; omega
                    · subst h1; simp [callInfo] at hci; omega
                    · subst h1; simp [callInfo] at hci; omega
                    · subst h1; simp [callInfo] at hci
                    · subst h1; simp [callInfo] at hci; omega
                    · exact ih (k + 1) ⟨st.clockReads + 2, st.files⟩ e kf sf he hf ev h1 k' s' hci
                  · have hj' : env.startJobOk k = false := by simpa using hj
                    rw [runLoop_cons_submit_fail env bucket txt rest k st tr hb' htr hs hc hr hp
                        hm hj'] at he hev
                    simp at he; subst he
                    simp [failInfo] at hf
                    simp at hev
                    rcases hev with h1 | h1 | h1 | h1 | h1 <;> subst h1 <;>
                      simp [callInfo] at hci <;> omega
                · have hm' : env.removeAudioOk k = false := by simpa using hm
                  rw [runLoop_cons_remove_fail env bucket txt rest k st tr hb' htr hs hc hr hp
                      hm'] at he hev
                  simp at he; subst he
                  simp [failInfo] at hf
                  simp at hev
                  rcases hev with h1 | h1 | h1 | h1 <;> subst h1 <;>
                    simp [callInfo] at hci <;> omega
              · have hp' : env.putOk k = false := by simpa using hp
                rw [runLoop_cons_put_fail env bucket txt rest k st tr hb' htr hs hc hr hp']
                  at he hev
                simp at he; subst he
                simp [failInfo] at hf
                simp at hev
                rcases hev with h1 | h1 | h1 <;> subst h1 <;>
                  simp [callInfo] at hci <;> omega
            · have hr' : env.readFromOk k = false := by simpa using hr
              rw [runLoop_cons_readFrom_fail env bucket txt rest k st tr hb' htr hs hc hr']
                at he hev
              simp at he; subst he
              simp [failInfo] at hf
              simp at hev
              rcases hev with h1 | h1 <;> subst h1 <;> simp [callInfo] at hci <;> omega
          · have hc' : env.createAudioOk k = false := by simpa using hc
            rw [runLoop_cons_create_fail env bucket txt rest k st tr hb' htr hs hc'] at he hev
            simp at he; subst he
            simp [failInfo] at hf
            simp at hev
            rcases hev with h1 | h1 <;> subst h1 <;> simp [callInfo] at hci <;> omega
        · have hs' : env.synthOk k = false := by simpa using hs
          rw [runLoop_cons_synth_fail env bucket txt rest k st tr hb' htr hs'] at he hev
          simp at he; subst he
          simp [failInfo] at hf
          simp at hev
          rcases hev with h1 | h1 <;> subst h1 <;> simp [callInfo] at hci <;> omega

/-- Every transcription submission in a loop trace carries the URI
`s3://bucket/key` where `key` is the key of that record's S3 upload and the
name of its (successfully removed) local staging file. -/
lemma runLoop_submit_src (env : Env) (bucket : String) (lines : List String) :
    ∀ (k0 : Nat) (st : St) (k : Nat) (jn uri lang mf ob : String),
    Event.submitCall k jn uri lang mf ob ∈ (runLoop env bucket lines k0 st).events →
    ∃ key, uri = "s3://" ++ bucket ++ "/" ++ key ∧
      Event.uploadCall k bucket key ∈ (runLoop env bucket lines k0 st).events ∧
      Event.removeLocal key true ∈ (runLoop env bucket lines k0 st).events := by
  induction lines with
  | nil => intro k0 st k jn uri lang mf ob hev; simp [runLoop] at hev
  | cons txt rest ih =>
    intro k0 st k jn uri lang mf ob hev
    by_cases hb : blankGo txt
    · rw [runLoop_cons_blank env bucket txt rest k0 st hb] at hev ⊢
      exact ih k0 st k jn uri lang mf ob hev
    · have hb' : blankGo txt = false := by simpa using hb
      rcases htr : env.translateRes k0 txt with _ | tr
      · rw [runLoop_cons_translate_fail env bucket txt rest k0 st hb' htr] at hev
        simp at hev
      · by_cases hs : env.synthOk k0 = true
        · by_cases hc : env.createAudioOk k0 = true
          · by_cases hr : env.readFromOk k0 = true
            · by_cases hp : env.putOk k0 = true
              · by_cases hm : env.removeAudioOk k0 = true
                · by_cases hj : env.startJobOk k0 = true
                  · rw [runLoop_cons_ok env bucket txt rest k0 st tr hb' htr hs hc hr hp hm hj]
                      at hev ⊢
                    simp only [List.mem_cons, Event.submitCall.injEq] at hev
                    rcases hev with h1 | h1 | h1 | h1 | h1 | h1
                    · exact absurd h1 (by simp)
                    · exact absurd h1 (by simp)
                    · exact absurd h1 (by simp)
                    · exact absurd h1 (by simp)
                    · obtain ⟨hk, hjn, huri, hlang, hmf, hob⟩ := h1
                      subst hk
                      exact ⟨audioName (env.clock st.clockReads), huri, by simp, by simp⟩
                    · obtain ⟨key, hkey, hup, hrm⟩ :=
                        ih (k0 + 1) ⟨st.clockReads + 2, st.files⟩ k jn uri lang mf ob h1
                      refine ⟨key, hkey, ?_, ?_⟩ <;> simp [hup, hrm]
                  · have hj' : env.startJobOk k0 = false := by simpa using hj
                    rw [runLoop_cons_submit_fail env bucket txt rest k0 st tr hb' htr hs hc hr hp
                        hm hj'] at hev ⊢
                    simp only [List.mem_cons, Event.submitCall.injEq, List.not_mem_nil,
                      or_false] at hev
                    rcases hev with h1 | h1 | h1 | h1 | h1
                    · exact absurd h1 (by simp)
                    · exact absurd h1 (by simp)
                    · exact absurd h1 (by simp)
                    · exact absurd h1 (by simp)
                    · obtain ⟨hk, hjn, huri, hlang, hmf, hob⟩ := h1
                      subst hk
                      exact ⟨audioName (env.clock st.clockReads), huri, by simp, by simp⟩
                · have hm' : env.removeAudioOk k0 = false := by simpa using hm
                  rw [runLoop_cons_remove_fail env bucket txt rest k0 st tr hb' htr hs hc hr hp
                      hm'] at hev
                  simp at hev
              · have hp' : env.putOk k0 = false := by simpa using hp
                rw [runLoop_cons_put_fail env bucket txt rest k0 st tr hb' htr hs hc hr hp']
                  at hev
                simp at hev
            · have hr' : env.readFromOk k0 = false := by simpa using hr
              rw [runLoop_cons_readFrom_fail env bucket txt rest k0 st tr hb' htr hs hc hr']
                at hev
              simp at hev
          · have hc' : env.createAudioOk k0 = false := by simpa using hc
            rw [runLoop_cons_create_fail env bucket txt rest k0 st tr hb' htr hs hc'] at hev
            simp at hev
        · have hs' : env.synthOk k0 = false := by simpa using hs
          rw [runLoop_cons_synth_fail env bucket txt rest k0 st tr hb' htr hs'] at hev
          simp at hev

/-- When the loop fails with the staging-file removal error of record `k`,
that record's S3 upload succeeded (its call is in the trace) and the failed
removal of its staging file is in the trace. -/
lemma runLoop_removeAudio_src (env : Env) (bucket : String) (lines : List String) :
    ∀ (k0 : Nat) (st : St) (k : Nat),
    (runLoop env bucket lines k0 st).err = some (.removeAudio k) →
    ∃ name, Event.uploadCall k bucket name ∈ (runLoop env bucket lines k0 st).events ∧
      Event.removeLocal name false ∈ (runLoop env bucket lines k0 st).events := by
  induction lines with
  | nil => intro k0 st k he; simp [runLoop] at he
  | cons txt rest ih =>
    intro k0 st k he
    by_cases hb : blankGo txt
    · rw [runLoop_cons_blank env bucket txt rest k0 st hb] at he ⊢
      exact ih k0 st k he
    · have hb' : blankGo txt = false := by simpa using hb
      rcases htr : env.translateRes k0 txt with _ | tr
      · rw [runLoop_cons_translate_fail env bucket txt rest k0 st hb' htr] at he
        simp at he
      · by_cases hs : env.synthOk k0 = true
        · by_cases hc : env.createAudioOk k0 = true
          · by_cases hr : env.readFromOk k0 = true
            · by_cases hp : env.putOk k0 = true
              · by_cases hm : env.removeAudioOk k0 = true
                · by_cases hj : env.startJobOk k0 = true
                  · rw [runLoop_cons_ok env bucket txt rest k0 st tr hb' htr hs hc hr hp hm hj]
                      at he ⊢
                    simp only at he
                    obtain ⟨name, hup, hrm⟩ :=
                      ih (k0 + 1) ⟨st.clockReads + 2, st.files⟩ k he
                    refine ⟨name, ?_, ?_⟩ <;> simp [hup, hrm]
                  · have hj' : env.startJobOk k0 = false := by simpa using hj
                    rw [runLoop_cons_submit_fail env bucket txt rest k0 st tr hb' htr hs hc hr hp
                        hm hj'] at he
                    simp at he
                · have hm' : env.removeAudioOk k0 = false := by simpa using hm
                  rw [runLoop_cons_remove_fail env bucket txt rest k0 st tr hb' htr hs hc hr hp
                      hm'] at he ⊢
                  simp only [Option.some.injEq, Err.removeAudio.injEq] at he
                  subst he
                  exact ⟨audioName (env.clock st.clockReads), by simp, by simp⟩
              · have hp' : env.putOk k0 = false := by simpa using hp
                rw [runLoop_cons_put_fail env bucket txt rest k0 st tr hb' htr hs hc hr hp']
                  at he
                simp at he
            · have hr' : env.readFromOk k0 = false := by simpa using hr
              rw [runLoop_cons_readFrom_fail env bucket txt rest k0 st tr hb' htr hs hc hr']
                at he
              simp at he
          · have hc' : env.createAudioOk k0 = false := by simpa using hc
            rw [runLoop_cons_create_fail env bucket txt rest k0 st tr hb' htr hs hc'] at he
            simp at he
        · have hs' : env.synthOk k0 = false := by simpa using hs
          rw [runLoop_cons_synth_fail env bucket txt rest k0 st tr hb' htr hs'] at he
          simp at he

/-- Finishing a token that does not end in a carriage return returns it
unchanged. -/
lemma finishTok_reverse (l : List Char) (h : l.getLast? ≠ some '\r') :
    finishTok l.reverse = l := by
  rcases hl : l.reverse with _ | ⟨c, t⟩
  · simp [finishTok, List.reverse_eq_nil_iff.mp hl]
  · have hc : l.getLast? = some c := by
      rw [← List.head?_reverse, hl]; rfl
    have hcr : ¬ c = '\r' := fun hh => h (hh ▸ hc)
    have hrev : (c :: t).reverse = l := by
      rw [← hl, List.reverse_reverse]
    simp [finishTok, hcr, hrev]

/-- The scanner splits off one newline-terminated token. -/
lemma scanAux_append (l : List Char) : ∀ (cur rest : List Char), '\n' ∉ l →
    scanAux cur (l ++ '\n' :: rest) = finishTok (l.reverse ++ cur) :: scanAux [] rest := by
  induction l with
  | nil => intro cur rest _; simp [scanAux]
  | cons c l' ih =>
    intro cur rest hn
    have hc : ¬ c = '\n' := by rintro rfl; exact hn (List.mem_cons_self _ _)
    have hl' : '\n' ∉ l' := fun hm => hn (List.mem_cons_of_mem _ hm)
    rw [List.cons_append, scanAux, if_neg hc, ih (c :: cur) rest hl']
    simp

/-- Round trip: scanning a newline-terminated serialization of lines returns
exactly those lines — blank and whitespace-only lines included, in order,
nothing filtered. -/
lemma scanLines_joinLines (ls : List String)
    (h : ∀ l ∈ ls, ('\n') ∉ l.data ∧ l.data.getLast? ≠ some '\r') :
    scanLines (joinLines ls) = ls := by
  induction ls with
  | nil => simp [scanLines, joinLines, scanAux]
  | cons l ls ih =>
    obtain ⟨hn, hr⟩ := h l (List.mem_cons_self _ _)
    have hdata : (joinLines (l :: ls)).data = l.data ++ '\n' :: (joinLines ls).data := by
      simp [joinLines]
    have htail : scanLines (joinLines ls) = ls :=
      ih (fun x hx => h x (List.mem_cons_of_mem _ hx))
    unfold scanLines at htail ⊢
    rw [hdata, scanAux_append l.data [] (joinLines ls).data hn]
    simp only [List.map_cons, htail, List.append_nil]
    rw [finishTok_reverse l.data hr]

/-- One sink entry per fully processed record. -/
lemma sinkFor_length (env : Env) (l : List String) : ∀ k, (sinkFor env l k).length = l.length := by
  induction l with
  | nil => intro k; simp [sinkFor]
  | cons t rest ih => intro k; simp [sinkFor, ih]

/-- The only errors `getInputText` can produce are the open error and the
scanner error. -/
lemma getInputText_error (env : Env) (e : Err) (h : getInputText env = .error e) :
    e = .ioOpen ∨ e = .ioScan := by
  unfold getInputText at h
  rcases hin : env.inputRaw with _ | raw
  · rw [hin] at h
    simp at h
    exact Or.inl h.symm
  · rw [hin] at h
    by_cases hs : env.scanErr
    · simp [hs] at h
      exact Or.inr h.symm
    · simp [hs] at h

/-- Shape of a whole run: either it stopped before the loop (no events, one
of the three pre-loop errors), or its outcome is the loop's outcome and its
events are the loop's events followed by the final sink bookkeeping. -/
lemma mainRun_shape (env : Env) :
    ((mainRun env).events = [] ∧
      ((mainRun env).outcome = some .ioOpen ∨ (mainRun env).outcome = some .ioScan ∨
        (mainRun env).outcome = some .createOutput)) ∨
    ∃ lines, getInputText env = .ok lines ∧
      (mainRun env).outcome = (runLoop env bucketName lines 0 ⟨0, [outputFileName]⟩).err ∧
      (mainRun env).events = (runLoop env bucketName lines 0 ⟨0, [outputFileName]⟩).events ++
        (if (runLoop env bucketName lines 0 ⟨0, [outputFileName]⟩).err.isSome then
          [Event.sinkFileRemoved env.removeOutputOk]
        else [Event.flushSink, Event.sinkFileRemoved env.removeOutputOk]) := by
  rcases hgi : getInputText env with e | lines
  · left
    rcases getInputText_error env e hgi with he | he <;> subst he <;>
      simp [mainRun, hgi]
  · by_cases hco : env.createOutputOk
    · right
      refine ⟨lines, rfl, ?_, ?_⟩ <;>
        rcases hle : (runLoop env bucketName lines 0 ⟨0, [outputFileName]⟩).err with _ | e <;>
          simp [mainRun, hgi, hco, hle]
    · left
      have hco' : env.createOutputOk = false := by simpa using hco
      simp [mainRun, hgi, hco']

/-- Environment identical to `envAllOk` except that the S3 upload fails. -/
def envPutFail : Env :=
  { envAllOk with inputRaw := some "a\n", putOk := fun _ => false }

/-- Environment identical to `envAllOk` except that the local staging-file
removal after the upload fails. -/
def envRemoveFail : Env :=
  { envAllOk with inputRaw := some "a\n", removeAudioOk := fun _ => false }

/-- Recognizer for transcription-submission events. -/
def isSubmitEvent : Event → Bool
  | .submitCall _ _ _ _ _ _ => true
  | _ => false

/-- C1 counterexample: in a run whose only record fails at the S3 upload, the
local staging file still exists at run end — the claim that it is deleted on
the upload-failure path is false of the code, which removes the file only
after a successful upload. -/
theorem C1_counterexample :
    (mainRun envPutFail).outcome = some (.storage 0) ∧
    audioName (envPutFail.clock 0) ∈ (mainRun envPutFail).localFiles := by decide

/-- C1 (amended): after the upload step of a record finishes, the staging
file is gone when the upload and the subsequent removal both succeed, but it
still exists on disk whenever the upload fails — there is no cleanup on the
upload-failure path. -/
theorem C1_staging_file_lifecycle (env : Env) (k : Nat) (text bucket : String) (st : St)
    (hs : env.synthOk k = true) (hc : env.createAudioOk k = true)
    (hr : env.readFromOk k = true)
    (hfresh : audioName (env.clock st.clockReads) ∉ st.files) :
    (env.putOk k = true → env.removeAudioOk k = true →
      audioName (env.clock st.clockReads) ∉
        (synthesizeSpeechAndUpload env k text bucket st).st.files) ∧
    (env.putOk k = false →
      audioName (env.clock st.clockReads) ∈
        (synthesizeSpeechAndUpload env k text bucket st).st.files) := by
  constructor
  · intro hp hm
    rw [synthesizeSpeechAndUpload_ok env k text bucket st hs hc hr hp hm]
    exact hfresh
  · intro hp
    simp [synthesizeSpeechAndUpload, hs, hc, hr, hp]

/-- C1 witness: the amended staging-file lifecycle at a concrete record whose
upload and removal both succeed. -/
theorem C1_witness :
    audioName (envAllOk.clock (St.mk 0 [outputFileName]).clockReads) ∉
      (synthesizeSpeechAndUpload envAllOk 0 "x" bucketName
        (St.mk 0 [outputFileName])).st.files :=
  (C1_staging_file_lifecycle envAllOk 0 "x" bucketName (St.mk 0 [outputFileName])
    rfl rfl rfl (by decide)).1 rfl rfl

/-- C2 counterexample: when the upload of the only record succeeds but the
deletion of its local staging copy fails, the run aborts with the removal
error and the TranscriptionSubmitter is never called — the claim that the
orchestrator still submits the record is false of the code. -/
theorem C2_counterexample :
    (mainRun envRemoveFail).outcome = some (.removeAudio 0) ∧
    Event.uploadCall 0 bucketName (audioName (envRemoveFail.clock 0))
      ∈ (mainRun envRemoveFail).events ∧
    (mainRun envRemoveFail).events.all (fun e => !isSubmitEvent e) = true := by decide

/-- C2 (amended): when a record's upload succeeds and the deletion of its
local staging copy then fails, the upload itself stands (its call is in the
trace and nothing reverses it), but the failure is escalated rather than only
reported: the run aborts with the removal error and the
TranscriptionSubmitter is not called for that record (nor any later one). -/
theorem C2_cleanup_failure_aborts (env : Env) (k : Nat)
    (ho : (mainRun env).outcome = some (.removeAudio k)) :
    (∃ name, Event.uploadCall k bucketName name ∈ (mainRun env).events ∧
      Event.removeLocal name false ∈ (mainRun env).events) ∧
    (∀ k' jn uri lang mf ob, k ≤ k' →
      Event.submitCall k' jn uri lang mf ob ∉ (mainRun env).events) := by
  rcases mainRun_shape env with ⟨_, hpre⟩ | ⟨lines, _, hout, hev⟩
  · rcases hpre with h | h | h <;> rw [ho] at h <;> exact absurd h (by simp)
  · rw [ho] at hout
    have hle : (runLoop env bucketName lines 0 ⟨0, [outputFileName]⟩).err =
        some (.removeAudio k) := hout.symm
    constructor
    · obtain ⟨name, hup, hrm⟩ :=
        runLoop_removeAudio_src env bucketName lines 0 ⟨0, [outputFileName]⟩ k hle
      exact ⟨name, by rw [hev]; exact List.mem_append_left _ hup,
        by rw [hev]; exact List.mem_append_left _ hrm⟩
    · intro k' jn uri lang mf ob hk hmem
      rw [hev] at hmem
      rcases List.mem_append.mp hmem with hmem | hmem
      · have := runLoop_fail_fast env bucketName lines 0 ⟨0, [outputFileName]⟩
          (.removeAudio k) k 2 hle rfl _ hmem k' 3 rfl
        omega
      · rcases hle' : (runLoop env bucketName lines 0 ⟨0, [outputFileName]⟩).err.isSome
        · rw [hle'] at hmem; simp at hmem
        · rw [hle'] at hmem; simp at hmem

/-- C2 witness: in the concrete run whose staging-file removal fails, no
transcription submission happens. -/
theorem C2_witness :
    Event.submitCall 0 "transcription-job-20240102030406"
      "s3://report.3q-aws-s24745201.com/audioFile-20240102030405-output.mp3" "en-US" "mp3"
      bucketName ∉ (mainRun envRemoveFail).events :=
  (C2_cleanup_failure_aborts envRemoveFail 0 (by decide)).2 0
    "transcription-job-20240102030406"
    "s3://report.3q-aws-s24745201.com/audioFile-20240102030405-output.mp3" "en-US" "mp3"
    bucketName (Nat.le_refl 0)

/-- Environment with three non-blank records whose second record fails at
the translation step. -/
def envTransFail : Env :=
  { envAllOk with
      inputRaw := some "a\nb\nc\n",
      translateRes := fun k t => if k = 1 then none else some ("en:" ++ t) }

/-- C3: when the `m`-th non-blank record (0-based, `m ≥ 1`) fails at the
translation step and all earlier records fully succeed, the sink at run end
holds exactly the `m` translations of the earlier records, in order. -/
theorem C3_translate_fail_sink (env : Env) (raw : String) (m : Nat)
    (hin : env.inputRaw = some raw) (hscan : env.scanErr = false)
    (hout : env.createOutputOk = true)
    (_hm1 : 1 ≤ m) (hm : m < (nonBlankRecords raw).length)
    (hok : ∀ j, j < m → recordOk env j ((nonBlankRecords raw).getD j ""))
    (hfail : env.translateRes m ((nonBlankRecords raw).getD m "") = none) :
    (mainRun env).sink = sinkFor env ((nonBlankRecords raw).take m) 0 ∧
    (mainRun env).sink.length = m := by
  have hgi : getInputText env = .ok (scanLines raw) := by
    simp [getInputText, hin, hscan]
  have hm' : m < ((scanLines raw).filter (fun t => !blankGo t)).length := hm
  have hok' : ∀ j, j < m →
      recordOk env (0 + j) (((scanLines raw).filter (fun t => !blankGo t)).getD j "") := by
    intro j hj; simpa using hok j hj
  obtain ⟨rest, hrest, hblank, heq⟩ :=
    runLoop_reach env bucketName (scanLines raw) 0 ⟨0, [outputFileName]⟩ m hm' hok'
  rw [runLoop_cons_translate_fail env bucketName _ rest (0 + m) _ hblank
    (by simpa using hfail)] at heq
  have hsink : (mainRun env).sink =
      sinkFor env (((scanLines raw).filter (fun t => !blankGo t)).take m) 0 := by
    simp [mainRun, hgi, hout, heq, prependResult]
  constructor
  · simpa [nonBlankRecords] using hsink
  · rw [hsink, sinkFor_length]
    simp only [List.length_take]
    omega

/-- C3 witness: translation failure on the second of three records leaves
exactly the first record's translation in the sink. -/
theorem C3_witness :
    (mainRun envTransFail).sink =
      sinkFor envTransFail ((nonBlankRecords "a\nb\nc\n").take 1) 0 ∧
    (mainRun envTransFail).sink.length = 1 :=
  C3_translate_fail_sink envTransFail "a\nb\nc\n" 1 rfl rfl rfl (by decide) (by decide)
    (by decide) (by decide)

/-- Environment whose only synthesis calls fail. -/
def envSynthFail : Env :=
  { envAllOk with inputRaw := some "a\nb\n", synthOk := fun _ => false }

/-- C4: fail-fast — when the run's outcome is a record-step failure at record
`k` and step `s`, every remote call in the whole trace belongs to an earlier
record or to the failing record at a step no later than `s`: nothing runs
after the failure, neither later steps of the failing record nor any step of
later records. -/
theorem C4_fail_fast_run (env : Env) (e : Err) (k s : Nat)
    (ho : (mainRun env).outcome = some e) (hf : failInfo e = some (k, s)) :
    ∀ ev ∈ (mainRun env).events, ∀ k' s', callInfo ev = some (k', s') →
      k' < k ∨ (k' = k ∧ s' ≤ s) := by
  rcases mainRun_shape env with ⟨hev0, hpre⟩ | ⟨lines, _, hout, hev⟩
  · intro ev hevm
    rw [hev0] at hevm
    simp at hevm
  · rw [ho] at hout
    have hle := hout.symm
    intro ev hevm k' s' hci
    rw [hev] at hevm
    rcases List.mem_append.mp hevm with h1 | h1
    · exact runLoop_fail_fast env bucketName lines 0 ⟨0, [outputFileName]⟩ e k s hle hf
        ev h1 k' s' hci
    · rcases hsome : (runLoop env bucketName lines 0 ⟨0, [outputFileName]⟩).err.isSome
      · rw [hsome] at h1
        simp at h1
        rcases h1 with h1 | h1 <;> subst h1 <;> simp [callInfo] at hci
      · rw [hsome] at h1
        simp at h1
        subst h1
        simp [callInfo] at hci

/-- C4 witness: a synthesis failure on the first record still lets the
first record's own translation call appear, within the fail-fast bound. -/
theorem C4_witness :
    Event.translateCall 0 "a" ∈ (mainRun envSynthFail).events ∧
    (0 < 0 ∨ (0 = 0 ∧ 0 ≤ 1)) :=
  ⟨by decide, C4_fail_fast_run envSynthFail (.synthesis 0) 0 1 (by decide) rfl
    (Event.translateCall 0 "a") (by decide) 0 0 rfl⟩

/-- C5: on a fully successful run the sink receives exactly one translated
entry per non-blank input line, in input order; blank lines contribute no
remote call and no entry (the trace is fully determined by the non-blank
records); and the trace ends with the sink flush followed by the removal of
the local sink copy. -/
theorem C5_success_run (env : Env) (raw : String)
    (hin : env.inputRaw = some raw) (hscan : env.scanErr = false)
    (hout : env.createOutputOk = true)
    (hok : ∀ j, j < (nonBlankRecords raw).length →
        recordOk env j ((nonBlankRecords raw).getD j "")) :
    (mainRun env).outcome = none ∧
    (mainRun env).sink = sinkFor env (nonBlankRecords raw) 0 ∧
    (mainRun env).sink.length = (nonBlankRecords raw).length ∧
    (mainRun env).events =
      okEvents env bucketName (nonBlankRecords raw) 0 0 ++
        [.flushSink, .sinkFileRemoved env.removeOutputOk] := by
  have hgi : getInputText env = .ok (scanLines raw) := by
    simp [getInputText, hin, hscan]
  have hok' : ∀ j, j < ((scanLines raw).filter (fun t => !blankGo t)).length →
      recordOk env (0 + j) (((scanLines raw).filter (fun t => !blankGo t)).getD j "") := by
    intro j hj; simpa using hok j hj
  have heq := runLoop_all_ok env bucketName (scanLines raw) 0 ⟨0, [outputFileName]⟩ hok'
  refine ⟨?_, ?_, ?_, ?_⟩ <;>
    simp [mainRun, hgi, hout, heq, nonBlankRecords, sinkFor_length]

/-- C5 witness: the fully successful run on input lines `a`, blank, `b`. -/
theorem C5_witness :
    (mainRun envAllOk).outcome = none ∧
    (mainRun envAllOk).sink = sinkFor envAllOk (nonBlankRecords "a\n\nb\n") 0 ∧
    (mainRun envAllOk).sink.length = (nonBlankRecords "a\n\nb\n").length ∧
    (mainRun envAllOk).events =
      okEvents envAllOk bucketName (nonBlankRecords "a\n\nb\n") 0 0 ++
        [.flushSink, .sinkFileRemoved envAllOk.removeOutputOk] :=
  C5_success_run envAllOk "a\n\nb\n" rfl rfl rfl (by decide)

/-- C6: the audio name is `audioFile-` + YYYYMMDDHHMMSS + `-output.mp3` and
the job name is `transcription-job-` + YYYYMMDDHHMMSS for every instant, and
at the fixed instant 2024-01-02T03:04:05 they are exactly the two expected
strings. -/
theorem C6_name_format :
    (∀ t : Timestamp,
      audioName t = "audioFile-" ++ formatTimestamp t ++ "-output.mp3" ∧
      jobName t = "transcription-job-" ++ formatTimestamp t ∧
      formatTimestamp t = padNum 4 t.year ++ padNum 2 t.month ++ padNum 2 t.day ++
        padNum 2 t.hour ++ padNum 2 t.minute ++ padNum 2 t.second) ∧
    audioName ⟨2024, 1, 2, 3, 4, 5, 0⟩ = "audioFile-20240102030405-output.mp3" ∧
    jobName ⟨2024, 1, 2, 3, 4, 5, 0⟩ = "transcription-job-20240102030405" :=
  ⟨fun _ => ⟨rfl, rfl, rfl⟩, by decide, by decide⟩

/-- C7: name generation is a pure function of the timestamp at whole-second
precision — two instants that agree on all calendar fields down to the
second (the sub-second component may differ) yield identical audio names and
identical job names. -/
theorem C7_second_granularity (t₁ t₂ : Timestamp)
    (hy : t₁.year = t₂.year) (hmo : t₁.month = t₂.month) (hd : t₁.day = t₂.day)
    (hh : t₁.hour = t₂.hour) (hmi : t₁.minute = t₂.minute)
    (hsec : t₁.second = t₂.second) :
    audioName t₁ = audioName t₂ ∧ jobName t₁ = jobName t₂ := by
  simp [audioName, jobName, formatTimestamp, hy, hmo, hd, hh, hmi, hsec]

/-- C7 witness: two distinct instants within the same second generate the
same names. -/
theorem C7_witness :
    Timestamp.mk 2024 1 2 3 4 5 111 ≠ Timestamp.mk 2024 1 2 3 4 5 999 ∧
    audioName ⟨2024, 1, 2, 3, 4, 5, 111⟩ = audioName ⟨2024, 1, 2, 3, 4, 5, 999⟩ ∧
    jobName ⟨2024, 1, 2, 3, 4, 5, 111⟩ = jobName ⟨2024, 1, 2, 3, 4, 5, 999⟩ :=
  ⟨by decide, C7_second_granularity ⟨2024, 1, 2, 3, 4, 5, 111⟩ ⟨2024, 1, 2, 3, 4, 5, 999⟩
    rfl rfl rfl rfl rfl rfl⟩

/-- C8: every transcription submission of a run carries the media URI
`s3://` + bucket + `/` + key, where `key` is exactly the S3 object key of
that record's upload and the name of its local staging file (whose successful
removal is also in the trace). -/
theorem C8_submit_uri (env : Env) (k : Nat) (jn uri lang mf ob : String)
    (hev : Event.submitCall k jn uri lang mf ob ∈ (mainRun env).events) :
    ∃ key, uri = "s3://" ++ bucketName ++ "/" ++ key ∧
      Event.uploadCall k bucketName key ∈ (mainRun env).events ∧
      Event.removeLocal key true ∈ (mainRun env).events := by
  rcases mainRun_shape env with ⟨hev0, _⟩ | ⟨lines, _, _, hevs⟩
  · rw [hev0] at hev
    simp at hev
  · rw [hevs] at hev ⊢
    rcases List.mem_append.mp hev with h1 | h1
    · obtain ⟨key, hkey, hup, hrm⟩ :=
        runLoop_submit_src env bucketName lines 0 ⟨0, [outputFileName]⟩ k jn uri lang mf ob h1
      exact ⟨key, hkey, List.mem_append_left _ hup, List.mem_append_left _ hrm⟩
    · rcases hsome : (runLoop env bucketName lines 0 ⟨0, [outputFileName]⟩).err.isSome
      · rw [hsome] at h1
        simp at h1
      · rw [hsome] at h1
        simp at h1

/-- C8 witness: the concrete submission of the first record of the
all-success run uses the URI built from the bucket and that record's upload
key. -/
theorem C8_witness :
    ∃ key, ("s3://report.3q-aws-s24745201.com/audioFile-20240102030405-output.mp3" : String) =
        "s3://" ++ bucketName ++ "/" ++ key ∧
      Event.uploadCall 0 bucketName key ∈ (mainRun envAllOk).events ∧
      Event.removeLocal key true ∈ (mainRun envAllOk).events :=
  C8_submit_uri envAllOk 0 "transcription-job-20240102030406"
    "s3://report.3q-aws-s24745201.com/audioFile-20240102030405-output.mp3" "en-US" "mp3"
    bucketName (by decide)

/-- Environment whose input file cannot be opened. -/
def envNoInput : Env := { envAllOk with inputRaw := none }

/-- C9: the line scanner returns every line of the input — blank and
whitespace-only lines included — in file order without filtering; and when
the source cannot be opened or a read error occurs, the run aborts with an
error before any remote call is made. -/
theorem C9_line_source :
    (∀ ls : List String, (∀ l ∈ ls, ('\n') ∉ l.data ∧ l.data.getLast? ≠ some '\r') →
      scanLines (joinLines ls) = ls) ∧
    (∀ env : Env, env.inputRaw = none ∨ env.scanErr = true →
      (mainRun env).events = [] ∧ (mainRun env).outcome.isSome = true) := by
  constructor
  · exact scanLines_joinLines
  · intro env h
    rcases h with h | h
    · simp [mainRun, getInputText, h]
    · rcases hin : env.inputRaw with _ | raw
      · simp [mainRun, getInputText, hin]
      · simp [mainRun, getInputText, hin, h]

/-- C9 witness: a concrete serialization with a blank and a whitespace-only
line scans back unchanged, and a run whose input cannot be opened makes no
call at all. -/
theorem C9_witness :
    scanLines (joinLines ["a", "", " b"]) = ["a", "", " b"] ∧
    (mainRun envNoInput).events = [] ∧ (mainRun envNoInput).outcome.isSome = true :=
  ⟨C9_line_source.1 ["a", "", " b"] (by decide), C9_line_source.2 envNoInput (Or.inl rfl)⟩

/-- Environment with a single record, whose two clock readings fall in
different seconds. -/
def envOneRec : Env := { envAllOk with inputRaw := some "hello\n" }

/-- C10: the audio name and the job name of one record come from two
independent clock readings, so an execution exists in which the
second-granular timestamp embedded in the record's audio name differs from
the one embedded in its job name. -/
theorem C10_independent_clock_reads :
    Event.uploadCall 0 bucketName "audioFile-20240102030405-output.mp3"
      ∈ (mainRun envOneRec).events ∧
    Event.submitCall 0 "transcription-job-20240102030406"
      "s3://report.3q-aws-s24745201.com/audioFile-20240102030405-output.mp3" "en-US" "mp3"
      bucketName ∈ (mainRun envOneRec).events ∧
    formatTimestamp (envOneRec.clock 0) ≠ formatTimestamp (envOneRec.clock 1) := by decide

end AwsPipeline
